import Mathlib

/-!
# Verification of the mp3image tag-access layer (`audio_handler.py`)

Shallow embedding of the four operations of `src/audio_handler.py`
(`extract_cover_art`, `embed_cover_art`, `get_metadata`, `set_metadata`)
over an explicit model of the ID3 tag container and the filesystem.

The underlying tag codec (mutagen's `ID3`/`MP3` classes) is, per the spec,
an assumed-correct dependency: it is modelled at the frame level as an
insertion-ordered association container keyed by the frame `HashKey`
(text frames are keyed by their 4-character identifier, attached-picture
frames by `APIC:` plus their description).  Parsing and serialising are
modelled as lossless (the container stored in a file is what a parse
returns), which is exactly the codec-correctness assumption of the spec.
-/

set_option autoImplicit false

namespace Mp3Image

/-- The `HashKey` by which mutagen's `ID3` mapping indexes frames.
Text frames hash to their frame id, attached pictures to
`"APIC:" ++ description`, and any other frame to its own id (ids of
other frame classes are distinct from `TIT2`/`TPE1`/`APIC`, so the
three constructors never alias). -/
inductive HKey where
  | text (id : String)
  | pic (desc : String)
  | plain (fid : String)
deriving DecidableEq, Repr

/-- An ID3v2 frame, restricted to the variants the program manipulates:
`TIT2` (title text), `TPE1` (artist text), `APIC` (attached picture),
and an opaque variant for any other frame id. -/
inductive Frame where
  | tit2 (encoding : Nat) (text : List String)
  | tpe1 (encoding : Nat) (text : List String)
  | apic (encoding : Nat) (mime : String) (picType : Nat) (desc : String) (data : List Nat)
  | other (fid : String) (payload : List Nat)
deriving DecidableEq, Repr

namespace Frame

/-- The 4-character frame identifier (mutagen `FrameID`). -/
def frameId : Frame → String
  | .tit2 _ _ => "TIT2"
  | .tpe1 _ _ => "TPE1"
  | .apic _ _ _ _ _ => "APIC"
  | .other fid _ => fid

/-- mutagen's `HashKey` of a frame: the dictionary key under which the
frame is stored in the `ID3` container. -/
def hashKey : Frame → HKey
  | .tit2 _ _ => .text "TIT2"
  | .tpe1 _ _ => .text "TPE1"
  | .apic _ _ _ desc _ => .pic desc
  | .other fid _ => .plain fid

/-- The `text` attribute of a text frame (list of strings in mutagen);
empty for non-text frames. -/
def text : Frame → List String
  | .tit2 _ t => t
  | .tpe1 _ t => t
  | _ => []

/-- Whether the frame is an attached picture (`isinstance(tag, APIC)`). -/
def isAPIC : Frame → Bool
  | .apic _ _ _ _ _ => true
  | _ => false

/-- The `data` attribute of an `APIC` frame; empty for other frames. -/
def apicData : Frame → List Nat
  | .apic _ _ _ _ d => d
  | _ => []

end Frame

/-- The ID3 tag container: mutagen's `ID3` object is an insertion-ordered
dictionary keyed by `HashKey`; we model it as the ordered list of its
frames.  Containers produced by the codec have pairwise-distinct hash
keys, but the type itself does not enforce that. -/
abbrev ID3 : Type := List Frame

namespace ID3

/-- Dictionary insertion `self[frame.HashKey] = frame` of a Python dict:
replace the first entry with the same key in place, else append.
mutagen's `ID3.add(frame)` is exactly this assignment. -/
def setitem : ID3 → Frame → ID3
  | [], f => [f]
  | g :: rest, f =>
      if g.hashKey = f.hashKey then f :: rest else g :: setitem rest f

/-- mutagen `ID3.add`. -/
def add (tags : ID3) (f : Frame) : ID3 := setitem tags f

/-- mutagen `ID3.delall(fid)`: remove every frame whose frame id is `fid`. -/
def delall (tags : ID3) (fid : String) : ID3 :=
  List.filter (fun f => f.frameId ≠ fid) tags

/-- Python `key in tags`: dictionary membership by hash key. -/
def containsKey (tags : ID3) (k : HKey) : Bool :=
  List.any tags (fun f => f.hashKey = k)

/-- Python `tags[key]`: the (first) frame stored under a hash key. -/
def findKey (tags : ID3) (k : HKey) : Option Frame :=
  List.find? (fun f => f.hashKey = k) tags

/-- Number of frames stored under a given hash key. -/
def countKey (tags : ID3) (k : HKey) : Nat :=
  (List.filter (fun f => f.hashKey = k) tags).length

/-- Number of attached-picture frames in the container. -/
def countAPIC (tags : ID3) : Nat :=
  (List.filter Frame.isAPIC tags).length

/-- The `for tag in audio.tags.values(): if isinstance(tag, APIC): return tag.data`
loop of `extract_cover_art`: data of the first attached picture, if any. -/
def firstAPICData : ID3 → Option (List Nat)
  | [] => none
  | f :: rest => if f.isAPIC then some f.apicData else firstAPICData rest

/-- Python truthiness of `audio.tags` once a container exists: an empty
dict-like object is falsy. -/
def truthy (tags : ID3) : Bool := !(List.isEmpty tags)

end ID3

/-- A file on disk, as far as the tag layer observes it:
either a parseable MP3 (with an optional ID3 container — `none` models a
file with no ID3v2 header, in which case mutagen's `MP3` loader sets
`audio.tags = None`), or a non-MP3 file with raw byte content (e.g. an
image; MPEG parsing of such a file raises). -/
inductive FileData where
  | mp3 (tags : Option ID3)
  | raw (bytes : List Nat)
deriving DecidableEq, Repr

/-- The Python exceptions the tag layer can raise or propagate.
`tagWriteError` is the wrapper named by the spec's error taxonomy; it is
included so that claims about it can be stated (the source never
constructs it). -/
inductive PyErr where
  | fileNotFound (msg : String)
  | headerNotFound
  | ioError (msg : String)
  | indexError
  | tagWriteError (cause : String)
deriving DecidableEq, Repr

/-- Whether an exception is the spec's `TagWriteError` wrapper. -/
def PyErr.isTagWriteError : PyErr → Bool
  | .tagWriteError _ => true
  | _ => false

/-- The filesystem: an association list from paths to file contents,
plus the set of paths on which an in-place save fails (permissions,
disk full — the causes behind a `save` raising). -/
structure FS where
  files : List (String × FileData)
  unwritable : List String
deriving DecidableEq, Repr

/-- Look a path up in an association list of files. -/
def findFile : List (String × FileData) → String → Option FileData
  | [], _ => none
  | (q, d) :: rest, p => if q = p then some d else findFile rest p

/-- Replace the content stored at a path (append if absent). -/
def updateFile : List (String × FileData) → String → FileData → List (String × FileData)
  | [], p, d => [(p, d)]
  | (q, e) :: rest, p, d =>
      if q = p then (q, d) :: rest else (q, e) :: updateFile rest p d

/-- `os.path.exists`. -/
def os_path_exists (fs : FS) (p : String) : Bool :=
  (findFile fs.files p).isSome

/-- The tag container currently stored at a path (empty if the path does
not hold a tagged MP3) — an observation helper for stating theorems. -/
def tagsAt (fs : FS) (p : String) : ID3 :=
  match findFile fs.files p with
  | some (.mp3 (some ts)) => ts
  | _ => []

/-- `MP3(path, ID3=ID3)`: parse the file.  A parseable MP3 yields its
optional tag container (`none` when there is no ID3 header — mutagen's
`ID3FileType.load` absorbs `ID3NoHeaderError` into `tags = None`); a
non-MP3 file raises (`HeaderNotFoundError`); a missing file raises
`FileNotFoundError` (callers always check existence first). -/
def MP3_open (fs : FS) (p : String) : Except PyErr (Option ID3) :=
  match findFile fs.files p with
  | none => .error (.fileNotFound ("File not found: " ++ p))
  | some (.mp3 tags) => .ok tags
  | some (.raw _) => .error .headerNotFound

/-- `audio.add_tags()` guarded by `try: ... except Exception: pass`:
create an empty container when none exists, keep the existing one
otherwise. -/
def ensure_tags (tags : Option ID3) : ID3 := tags.getD []

/-- `open(image_path, 'rb').read()`: the byte content of a file.  The
byte-level content of files modelled as MP3s is not represented; the
program only ever reads image files here. -/
def read_bytes (fs : FS) (p : String) : Except PyErr (List Nat) :=
  match findFile fs.files p with
  | none => .error (.fileNotFound ("No such file: " ++ p))
  | some (.raw b) => .ok b
  | some (.mp3 _) => .ok []

/-- `audio.save(v2_version=3)`: persist the container back into the file
in one step.  Per the spec the codec's persist is assumed correct, i.e.
it either rewrites the tag region in full or raises leaving the file as
it was; failure is modelled by membership in `fs.unwritable`. -/
def save (fs : FS) (p : String) (tags : ID3) : Except PyErr FS :=
  if p ∈ fs.unwritable then
    .error (.ioError ("Unable to save: " ++ p))
  else
    .ok { fs with files := updateFile fs.files p (.mp3 (some tags)) }

/-! ## `os.path.splitext` and `str.lower`, as used for MIME derivation -/

/-- The basename: the characters after the last `/` (POSIX `os.path`). -/
def afterLastSep (l : List Char) : List Char :=
  List.foldl (fun acc c => if c = '/' then [] else acc ++ [c]) [] l

/-- The suffix of `l` starting at its last `.` (inclusive), if any. -/
def suffixFromLastDot (l : List Char) : Option (List Char) :=
  List.foldl
    (fun acc c => if c = '.' then some ['.'] else acc.map (fun s => s ++ [c]))
    none l

/-- `os.path.splitext(p)[1]` on POSIX: the extension of the basename,
from its last dot — except that a leading run of dots in the basename
never starts an extension (`.bashrc` has none). -/
def splitext_ext (p : String) : String :=
  let base := afterLastSep p.toList
  let stem := base.dropWhile (fun c => c = '.')
  match suffixFromLastDot stem with
  | some e => ⟨e⟩
  | none => ""

/-- Python `str.lower`, restricted to ASCII case folding (extension
strings compared by the program are ASCII). -/
def py_lower (s : String) : String := ⟨s.toList.map Char.toLower⟩

/-- Lines 76–84 of `audio_handler.py`: derive the MIME type from the
image path's lowercased extension, defaulting to `image/jpeg`. -/
def mime_from_ext (image_path : String) : String :=
  let ext := py_lower (splitext_ext image_path)
  if ext = ".jpg" ∨ ext = ".jpeg" then "image/jpeg"
  else if ext = ".png" then "image/png"
  else "image/jpeg"

/-! ## The four operations of `audio_handler.py`

Read operations return `Except PyErr α` (they never modify the
filesystem).  Write operations return `Except PyErr Unit × FS`: the
outcome together with the filesystem after the call, so that theorems
can speak about what an aborted call left behind. -/

/-- `extract_cover_art(mp3_path)`: raise `FileNotFoundError` when the
path is missing; absorb any parse failure into `None`; otherwise return
the data of the first `APIC` frame, if the container is truthy and holds
one. -/
def extract_cover_art (fs : FS) (mp3_path : String) : Except PyErr (Option (List Nat)) :=
  if os_path_exists fs mp3_path = false then
    .error (.fileNotFound ("File not found: " ++ mp3_path))
  else
    match MP3_open fs mp3_path with
    | .error _ => .ok none
    | .ok tagsOpt =>
        match tagsOpt with
        | none => .ok none
        | some tags =>
            if ID3.truthy tags then .ok (ID3.firstAPICData tags) else .ok none

/-- One `if audio.tags and KEY in audio.tags: field = audio.tags[KEY].text[0]`
block of `get_metadata` (`audio.tags` is `None` or a container; both
`None` and the empty container are falsy).  Indexing `text[0]` of a
frame with an empty text list raises `IndexError` (outside the `try`). -/
def read_field (tagsOpt : Option ID3) (k : HKey) : Except PyErr (Option String) :=
  match tagsOpt with
  | none => .ok none
  | some tags =>
      if ID3.truthy tags && ID3.containsKey tags k then
        match ID3.findKey tags k with
        | some f =>
            match f.text with
            | [] => .error .indexError
            | s :: _ => .ok (some s)
        | none => .error .indexError
      else .ok none

/-- `get_metadata(mp3_path)`: raise `FileNotFoundError` when the path is
missing; absorb any parse failure into `{'title': None, 'artist': None}`;
otherwise read the two fields with `read_field`. -/
def get_metadata (fs : FS) (mp3_path : String) :
    Except PyErr (Option String × Option String) :=
  if os_path_exists fs mp3_path = false then
    .error (.fileNotFound ("File not found: " ++ mp3_path))
  else
    match MP3_open fs mp3_path with
    | .error _ => .ok (none, none)
    | .ok tagsOpt =>
        match read_field tagsOpt (.text "TIT2") with
        | .error e => .error e
        | .ok title =>
            match read_field tagsOpt (.text "TPE1") with
            | .error e => .error e
            | .ok artist => .ok (title, artist)

/-- `set_metadata(mp3_path, title, artist)`: raise `FileNotFoundError`
when the path is missing; otherwise parse, ensure a container exists,
`add` a fresh `TIT2` and `TPE1` frame (no `delall` — replacement comes
from the container's keyed assignment), and save as ID3v2.3.  Any
exception inside the `try` is logged and re-raised as-is. -/
def set_metadata (fs : FS) (mp3_path title artist : String) :
    Except PyErr Unit × FS :=
  if os_path_exists fs mp3_path = false then
    (.error (.fileNotFound ("File not found: " ++ mp3_path)), fs)
  else
    match MP3_open fs mp3_path with
    | .error e => (.error e, fs)
    | .ok tagsOpt =>
        let tags := ensure_tags tagsOpt
        let tags := ID3.add tags (.tit2 3 [title])
        let tags := ID3.add tags (.tpe1 3 [artist])
        match save fs mp3_path tags with
        | .error e => (.error e, fs)
        | .ok fs2 => (.ok (), fs2)

/-- `embed_cover_art(mp3_path, image_path)`: raise `FileNotFoundError`
naming whichever path is missing; otherwise parse, ensure a container,
read the image bytes in full, derive the MIME type, build one `APIC`
frame (front cover, description `"Cover"`), `delall("APIC")`, `add` the
new frame, and save as ID3v2.3.  Any exception inside the `try` is
logged and re-raised as-is. -/
def embed_cover_art (fs : FS) (mp3_path image_path : String) :
    Except PyErr Unit × FS :=
  if os_path_exists fs mp3_path = false then
    (.error (.fileNotFound ("MP3 file not found: " ++ mp3_path)), fs)
  else if os_path_exists fs image_path = false then
    (.error (.fileNotFound ("Image file not found: " ++ image_path)), fs)
  else
    match MP3_open fs mp3_path with
    | .error e => (.error e, fs)
    | .ok tagsOpt =>
        let tags := ensure_tags tagsOpt
        match read_bytes fs image_path with
        | .error e => (.error e, fs)
        | .ok image_data =>
            let mime := mime_from_ext image_path
            let apic := Frame.apic 3 mime 3 "Cover" image_data
            let tags := ID3.add (ID3.delall tags "APIC") apic
            match save fs mp3_path tags with
            | .error e => (.error e, fs)
            | .ok fs2 => (.ok (), fs2)

/-- The tag container `embed_cover_art` persists when it succeeds
(an observation helper used to state that a successful call performs
exactly one whole-container update). -/
def embed_result_tags (fs : FS) (mp3_path image_path : String) : ID3 :=
  let tags := ensure_tags ((MP3_open fs mp3_path).toOption.getD none)
  let image_data := (read_bytes fs image_path).toOption.getD []
  ID3.add (ID3.delall tags "APIC")
    (Frame.apic 3 (mime_from_ext image_path) 3 "Cover" image_data)

/-! ## Container lemmas -/

namespace ID3

theorem setitem_ne_nil (tags : ID3) (f : Frame) : setitem tags f ≠ [] := by
  cases tags with
  | nil => simp [setitem]
  | cons g rest => simp only [setitem]; split <;> simp

theorem truthy_setitem (tags : ID3) (f : Frame) : truthy (setitem tags f) = true := by
  have h := setitem_ne_nil tags f
  unfold truthy
  cases hs : setitem tags f with
  | nil => exact absurd hs h
  | cons g rest => simp [List.isEmpty]

theorem findKey_setitem_self (tags : ID3) (f : Frame) :
    findKey (setitem tags f) f.hashKey = some f := by
  induction tags with
  | nil => simp [setitem, findKey, List.find?]
  | cons g rest ih =>
      by_cases h : g.hashKey = f.hashKey
      · rw [setitem, if_pos h]
        simp [findKey, List.find?]
      · rw [setitem, if_neg h]
        simp only [findKey, List.find?] at ih ⊢
        simp [h]
        exact ih

theorem findKey_setitem_other (tags : ID3) (f : Frame) (k : HKey)
    (h : f.hashKey ≠ k) : findKey (setitem tags f) k = findKey tags k := by
  induction tags with
  | nil => simp [setitem, findKey, List.find?, h]
  | cons g rest ih =>
      by_cases hg : g.hashKey = f.hashKey
      · have hgk : g.hashKey ≠ k := by rw [hg]; exact h
        rw [setitem, if_pos hg]
        simp [findKey, List.find?, h, hgk]
      · rw [setitem, if_neg hg]
        by_cases hk : g.hashKey = k
        · simp [findKey, List.find?, hk]
        · simp only [findKey, List.find?] at ih ⊢
          simp [hk]
          exact ih

theorem countKey_cons (g : Frame) (l : ID3) (k : HKey) :
    countKey (g :: l) k = (if g.hashKey = k then 1 else 0) + countKey l k := by
  by_cases h : g.hashKey = k
  · simp [countKey, List.filter_cons, h]
    omega
  · simp [countKey, List.filter_cons, h]

theorem containsKey_eq_findKey (tags : ID3) (k : HKey) :
    containsKey tags k = (findKey tags k).isSome := by
  induction tags with
  | nil => simp [containsKey, findKey, List.find?]
  | cons g rest ih =>
      simp only [containsKey, findKey, List.any, List.find?] at ih ⊢
      by_cases h : g.hashKey = k
      · simp [h]
      · simp [h, ih]

theorem countKey_setitem_self (tags : ID3) (f : Frame)
    (h : countKey tags f.hashKey ≤ 1) : countKey (setitem tags f) f.hashKey = 1 := by
  induction tags with
  | nil => simp [setitem, countKey, List.filter]
  | cons g rest ih =>
      by_cases hg : g.hashKey = f.hashKey
      · rw [countKey_cons, if_pos hg] at h
        have hz : countKey rest f.hashKey = 0 := by omega
        rw [setitem, if_pos hg, countKey_cons, if_pos rfl, hz]
      · rw [countKey_cons, if_neg hg] at h
        rw [setitem, if_neg hg, countKey_cons, if_neg hg]
        simp only [Nat.zero_add] at h ⊢
        exact ih h

theorem countKey_setitem_other (tags : ID3) (f : Frame) (k : HKey)
    (h : f.hashKey ≠ k) : countKey (setitem tags f) k = countKey tags k := by
  induction tags with
  | nil => simp [setitem, countKey, List.filter, h]
  | cons g rest ih =>
      by_cases hg : g.hashKey = f.hashKey
      · have hgk : g.hashKey ≠ k := by rw [hg]; exact h
        rw [setitem, if_pos hg, countKey_cons, if_neg h, countKey_cons, if_neg hgk]
      · rw [setitem, if_neg hg, countKey_cons, countKey_cons, ih]

end ID3

/-- A frame stored under a `text` hash key is never an attached picture. -/
theorem Frame.not_isAPIC_of_hashKey_text (f : Frame) (id : String)
    (h : f.hashKey = .text id) : f.isAPIC = false := by
  cases f <;> simp_all [Frame.hashKey, Frame.isAPIC]

/-- An attached-picture frame has frame id `APIC`. -/
theorem Frame.frameId_of_isAPIC (f : Frame) (h : f.isAPIC = true) :
    f.frameId = "APIC" := by
  cases f <;> simp_all [Frame.frameId, Frame.isAPIC]

namespace ID3

/-- After `delall "APIC"` no attached picture remains. -/
theorem not_isAPIC_of_mem_delall (tags : ID3) (f : Frame)
    (h : f ∈ delall tags "APIC") : f.isAPIC = false := by
  unfold delall at h
  have h2 := List.of_mem_filter h
  simp only [decide_eq_true_eq] at h2
  by_contra hc
  simp only [Bool.not_eq_false] at hc
  exact h2 (Frame.frameId_of_isAPIC f hc)

/-- `setitem` with a text-keyed frame leaves the attached pictures
of the container unchanged (same frames, same order). -/
theorem filter_isAPIC_setitem_text (tags : ID3) (f : Frame) (id : String)
    (h : f.hashKey = .text id) :
    List.filter Frame.isAPIC (setitem tags f) = List.filter Frame.isAPIC tags := by
  induction tags with
  | nil =>
      simp [setitem, List.filter, Frame.not_isAPIC_of_hashKey_text f id h]
  | cons g rest ih =>
      simp only [setitem]
      split
      · rename_i heq
        have hg : g.isAPIC = false :=
          Frame.not_isAPIC_of_hashKey_text g id (by rw [heq, h])
        have hf : f.isAPIC = false := Frame.not_isAPIC_of_hashKey_text f id h
        simp [List.filter_cons, hg, hf]
      · simp only [List.filter_cons]
        split <;> simp [ih]

/-- `firstAPICData` is likewise unchanged by a text-keyed `setitem`. -/
theorem firstAPICData_setitem_text (tags : ID3) (f : Frame) (id : String)
    (h : f.hashKey = .text id) :
    firstAPICData (setitem tags f) = firstAPICData tags := by
  induction tags with
  | nil =>
      simp [setitem, firstAPICData, Frame.not_isAPIC_of_hashKey_text f id h]
  | cons g rest ih =>
      simp only [setitem]
      split
      · rename_i heq
        have hg : g.isAPIC = false :=
          Frame.not_isAPIC_of_hashKey_text g id (by rw [heq, h])
        have hf : f.isAPIC = false := Frame.not_isAPIC_of_hashKey_text f id h
        simp [firstAPICData, hg, hf]
      · simp only [firstAPICData]
        split <;> simp [ih]

/-- Inserting an attached picture into an APIC-free container makes its
data the first (and the container's only) picture data. -/
theorem firstAPICData_setitem_apic (tags : ID3)
    (e : Nat) (m : String) (t : Nat) (d : String) (b : List Nat)
    (h : ∀ f ∈ tags, f.isAPIC = false) :
    firstAPICData (setitem tags (.apic e m t d b)) = some b := by
  induction tags with
  | nil => simp [setitem, firstAPICData, Frame.isAPIC, Frame.apicData]
  | cons g rest ih =>
      have hg : g.isAPIC = false := h g (List.mem_cons_self g rest)
      simp only [setitem]
      split
      · simp [firstAPICData, Frame.isAPIC, Frame.apicData]
      · simp only [firstAPICData, hg, if_neg]
        simp only [Bool.false_eq_true, if_false]
        exact ih (fun f hf => h f (List.mem_cons_of_mem g hf))

/-- Inserting an attached picture into an APIC-free container yields
exactly one attached-picture frame. -/
theorem countAPIC_setitem_apic (tags : ID3)
    (e : Nat) (m : String) (t : Nat) (d : String) (b : List Nat)
    (h : ∀ f ∈ tags, f.isAPIC = false) :
    countAPIC (setitem tags (.apic e m t d b)) = 1 := by
  induction tags with
  | nil => simp [setitem, countAPIC, List.filter, Frame.isAPIC]
  | cons g rest ih =>
      have hg : g.isAPIC = false := h g (List.mem_cons_self g rest)
      simp only [setitem]
      split
      · rename_i heq
        exfalso
        cases g <;> simp_all [Frame.hashKey, Frame.isAPIC]
      · simp only [countAPIC, List.filter_cons, hg]
        simp only [Bool.false_eq_true, if_false]
        exact ih (fun f hf => h f (List.mem_cons_of_mem g hf))

end ID3

/-! ## Filesystem lemmas -/

theorem findFile_updateFile_self (l : List (String × FileData)) (p : String)
    (d : FileData) : findFile (updateFile l p d) p = some d := by
  induction l with
  | nil => simp [updateFile, findFile]
  | cons e rest ih =>
      obtain ⟨q, c⟩ := e
      simp only [updateFile]
      split
      · rename_i hq
        simp [findFile, hq]
      · rename_i hq
        simp [findFile, hq, ih]

/-! ## Operation-level lemmas -/

/-- The container `set_metadata` builds before saving. -/
def set_result_tags (tagsOpt : Option ID3) (title artist : String) : ID3 :=
  ID3.add (ID3.add (ensure_tags tagsOpt) (.tit2 3 [title])) (.tpe1 3 [artist])

theorem set_metadata_shape (fs : FS) (p title artist : String)
    (tagsOpt : Option ID3)
    (h1 : findFile fs.files p = some (.mp3 tagsOpt))
    (h2 : p ∉ fs.unwritable) :
    set_metadata fs p title artist =
      (.ok (), ⟨updateFile fs.files p
        (.mp3 (some (set_result_tags tagsOpt title artist))), fs.unwritable⟩) := by
  have hex : os_path_exists fs p = true := by
    simp [os_path_exists, h1]
  simp [set_metadata, hex, MP3_open, h1, save, h2, set_result_tags]

theorem set_metadata_ok_inv (fs : FS) (p title artist : String)
    (h : (set_metadata fs p title artist).1 = .ok ()) :
    (∃ tagsOpt, findFile fs.files p = some (.mp3 tagsOpt)) ∧ p ∉ fs.unwritable := by
  by_cases hex : os_path_exists fs p = false
  · simp [set_metadata, hex] at h
  · simp only [Bool.not_eq_false] at hex
    have hff : (findFile fs.files p).isSome := by
      simpa [os_path_exists] using hex
    cases hd : findFile fs.files p with
    | none => rw [hd] at hff; simp at hff
    | some d =>
        cases d with
        | raw b =>
            simp [set_metadata, hex, MP3_open, hd] at h
        | mp3 tagsOpt =>
            refine ⟨⟨tagsOpt, rfl⟩, ?_⟩
            intro hw
            simp [set_metadata, hex, MP3_open, hd, save, hw] at h

theorem embed_shape (fs : FS) (p img : String) (tagsOpt : Option ID3) (d : FileData)
    (h1 : findFile fs.files p = some (.mp3 tagsOpt))
    (h2 : findFile fs.files img = some d)
    (h3 : p ∉ fs.unwritable) :
    embed_cover_art fs p img =
      (.ok (), ⟨updateFile fs.files p
        (.mp3 (some (embed_result_tags fs p img))), fs.unwritable⟩) := by
  have hex : os_path_exists fs p = true := by simp [os_path_exists, h1]
  have hexi : os_path_exists fs img = true := by simp [os_path_exists, h2]
  cases d with
  | mp3 t =>
      simp [embed_cover_art, hex, hexi, MP3_open, h1, h2, read_bytes, save, h3,
        embed_result_tags, ensure_tags, Except.toOption]
  | raw b =>
      simp [embed_cover_art, hex, hexi, MP3_open, h1, h2, read_bytes, save, h3,
        embed_result_tags, ensure_tags, Except.toOption]

theorem embed_ok_inv (fs : FS) (p img : String)
    (h : (embed_cover_art fs p img).1 = .ok ()) :
    (∃ tagsOpt, findFile fs.files p = some (.mp3 tagsOpt)) ∧
      (∃ d, findFile fs.files img = some d) ∧ p ∉ fs.unwritable := by
  by_cases hex : os_path_exists fs p = false
  · simp [embed_cover_art, hex] at h
  · simp only [Bool.not_eq_false] at hex
    by_cases hexi : os_path_exists fs img = false
    · simp [embed_cover_art, hex, hexi] at h
    · simp only [Bool.not_eq_false] at hexi
      have hff : (findFile fs.files p).isSome := by simpa [os_path_exists] using hex
      have hfi : (findFile fs.files img).isSome := by simpa [os_path_exists] using hexi
      cases hd : findFile fs.files p with
      | none => rw [hd] at hff; simp at hff
      | some d =>
          cases hdi : findFile fs.files img with
          | none => rw [hdi] at hfi; simp at hfi
          | some di =>
              cases d with
              | raw b => simp [embed_cover_art, hex, hexi, MP3_open, hd] at h
              | mp3 tagsOpt =>
                  refine ⟨⟨tagsOpt, rfl⟩, ⟨di, rfl⟩, ?_⟩
                  intro hw
                  cases di with
                  | mp3 t =>
                      simp [embed_cover_art, hex, hexi, MP3_open, hd, hdi,
                        read_bytes, save, hw] at h
                  | raw b =>
                      simp [embed_cover_art, hex, hexi, MP3_open, hd, hdi,
                        read_bytes, save, hw] at h

/-- `read_field` succeeds with the first text value of the frame stored
under `k`. -/
theorem read_field_found (ts : ID3) (k : HKey) (f : Frame) (s : String)
    (rest : List String)
    (hf : ID3.findKey ts k = some f) (hs : f.text = s :: rest) :
    read_field (some ts) k = .ok (some s) := by
  have hne : ts ≠ [] := by
    intro hnil
    rw [hnil] at hf
    simp [ID3.findKey, List.find?] at hf
  have htr : ID3.truthy ts = true := by
    cases ts with
    | nil => exact absurd rfl hne
    | cons a l => simp [ID3.truthy, List.isEmpty]
  have hck : ID3.containsKey ts k = true := by
    rw [ID3.containsKey_eq_findKey, hf]
    rfl
  simp [read_field, htr, hck, hf, hs]

/-- `read_field` never raises when every frame stored under `k` has a
non-empty text list. -/
theorem read_field_ok (tagsOpt : Option ID3) (k : HKey)
    (h : ∀ f, ID3.findKey (ensure_tags tagsOpt) k = some f → f.text ≠ []) :
    ∃ v, read_field tagsOpt k = .ok v := by
  cases tagsOpt with
  | none => exact ⟨none, rfl⟩
  | some ts =>
      by_cases hg : (ID3.truthy ts && ID3.containsKey ts k) = true
      · have hck : ID3.containsKey ts k = true := by
          simp only [Bool.and_eq_true] at hg
          exact hg.2
        rw [ID3.containsKey_eq_findKey] at hck
        cases hf : ID3.findKey ts k with
        | none => rw [hf] at hck; simp at hck
        | some f =>
            have hne : f.text ≠ [] := h f (by simpa [ensure_tags] using hf)
            cases ht : f.text with
            | nil => exact absurd ht hne
            | cons s r =>
                exact ⟨some s, by simp [read_field, hg, hf, ht]⟩
      · exact ⟨none, by simp [read_field, hg]⟩

/-! ## Concrete fixtures used by witnesses and counterexamples -/

/-- A filesystem with an untagged MP3 and two image files. -/
def sampleFS : FS :=
  ⟨[("a.mp3", .mp3 none), ("c.png", .raw [1, 2, 3]), ("d.bmp", .raw [7])], []⟩

/-- A filesystem whose MP3 cannot be saved (e.g. no write permission). -/
def roFS : FS := ⟨[("a.mp3", .mp3 none), ("c.png", .raw [9])], ["a.mp3"]⟩

/-! ## Claims -/

/-- C1: for every path holding a parseable, writable MP3 and all
title/artist strings `t`, `a` (empty strings and non-Latin scripts
included), `set_metadata` succeeds and a following `get_metadata`
returns exactly `(title = t, artist = a)`. -/
theorem C1_metadata_roundtrip (fs : FS) (p t a : String) (tagsOpt : Option ID3)
    (h1 : findFile fs.files p = some (.mp3 tagsOpt))
    (h2 : p ∉ fs.unwritable) :
    (set_metadata fs p t a).1 = .ok () ∧
    get_metadata (set_metadata fs p t a).2 p = .ok (some t, some a) := by
  rw [set_metadata_shape fs p t a tagsOpt h1 h2]
  refine ⟨rfl, ?_⟩
  have hf : findFile (updateFile fs.files p (.mp3 (some (set_result_tags tagsOpt t a)))) p
      = some (.mp3 (some (set_result_tags tagsOpt t a))) :=
    findFile_updateFile_self fs.files p _
  have hT : ID3.findKey (set_result_tags tagsOpt t a) (.text "TIT2")
      = some (.tit2 3 [t]) := by
    unfold set_result_tags ID3.add
    rw [ID3.findKey_setitem_other
      (ID3.setitem (ensure_tags tagsOpt) (.tit2 3 [t])) (.tpe1 3 [a])
      (.text "TIT2") (by simp [Frame.hashKey])]
    have hs := ID3.findKey_setitem_self (ensure_tags tagsOpt) (.tit2 3 [t])
    simpa [Frame.hashKey] using hs
  have hA : ID3.findKey (set_result_tags tagsOpt t a) (.text "TPE1")
      = some (.tpe1 3 [a]) := by
    unfold set_result_tags ID3.add
    have hs := ID3.findKey_setitem_self
      (ID3.setitem (ensure_tags tagsOpt) (.tit2 3 [t])) (.tpe1 3 [a])
    simpa [Frame.hashKey] using hs
  simp only [get_metadata, os_path_exists, hf, Option.isSome_some, MP3_open]
  rw [read_field_found _ _ _ t [] hT rfl, read_field_found _ _ _ a [] hA rfl]
  simp

/-- C1 witness: round-tripping Hebrew strings through a fresh untagged
MP3 gives them back exactly. -/
theorem C1_metadata_roundtrip_witness :
    (set_metadata sampleFS "a.mp3" "כותרת בדיקה" "אמן בדיקה").1 = .ok () ∧
    get_metadata (set_metadata sampleFS "a.mp3" "כותרת בדיקה" "אמן בדיקה").2 "a.mp3"
      = .ok (some "כותרת בדיקה", some "אמן בדיקה") :=
  C1_metadata_roundtrip sampleFS "a.mp3" "כותרת בדיקה" "אמן בדיקה" none rfl (by simp [sampleFS])

/-- C6: a missing MP3 path makes `embed_cover_art`, `extract_cover_art`
and `get_metadata` fail with `FileNotFoundError` naming that path, a
missing image path makes `embed_cover_art` fail naming the image, and
in each case the filesystem is unchanged. -/
theorem C6_missing_file (fs : FS) (p img : String) :
    (findFile fs.files p = none →
      embed_cover_art fs p img
        = (.error (.fileNotFound ("MP3 file not found: " ++ p)), fs)) ∧
    (os_path_exists fs p = true → findFile fs.files img = none →
      embed_cover_art fs p img
        = (.error (.fileNotFound ("Image file not found: " ++ img)), fs)) ∧
    (findFile fs.files p = none →
      extract_cover_art fs p = .error (.fileNotFound ("File not found: " ++ p))) ∧
    (findFile fs.files p = none →
      get_metadata fs p = .error (.fileNotFound ("File not found: " ++ p))) := by
  refine ⟨fun h => ?_, fun hp h => ?_, fun h => ?_, fun h => ?_⟩
  · simp [embed_cover_art, os_path_exists, h]
  · have hp2 : (findFile fs.files p).isSome = true := by
      simpa [os_path_exists] using hp
    simp [embed_cover_art, os_path_exists, h, hp2]
  · simp [extract_cover_art, os_path_exists, h]
  · simp [get_metadata, os_path_exists, h]

/-- C6 witness: the four failure modes at concrete missing paths. -/
theorem C6_missing_file_witness :
    embed_cover_art sampleFS "x.mp3" "c.png"
      = (.error (.fileNotFound "MP3 file not found: x.mp3"), sampleFS) ∧
    embed_cover_art sampleFS "a.mp3" "y.png"
      = (.error (.fileNotFound "Image file not found: y.png"), sampleFS) ∧
    extract_cover_art sampleFS "x.mp3" = .error (.fileNotFound "File not found: x.mp3") ∧
    get_metadata sampleFS "x.mp3" = .error (.fileNotFound "File not found: x.mp3") :=
  ⟨(C6_missing_file sampleFS "x.mp3" "c.png").1 rfl,
   (C6_missing_file sampleFS "a.mp3" "y.png").2.1 rfl rfl,
   (C6_missing_file sampleFS "x.mp3" "c.png").2.2.1 rfl,
   (C6_missing_file sampleFS "x.mp3" "c.png").2.2.2 rfl⟩

/-- C7: on an existing MP3 with no ID3 container, `get_metadata` returns
absent title and artist and `extract_cover_art` returns absent cover
art; neither raises (the no-tag-header condition is absorbed). -/
theorem C7_untagged_reads (fs : FS) (p : String)
    (h : findFile fs.files p = some (.mp3 none)) :
    get_metadata fs p = .ok (none, none) ∧ extract_cover_art fs p = .ok none := by
  constructor
  · simp [get_metadata, os_path_exists, h, MP3_open, read_field]
  · simp [extract_cover_art, os_path_exists, h, MP3_open]

/-- C7 witness: reads on a concrete untagged MP3. -/
theorem C7_untagged_reads_witness :
    get_metadata sampleFS "a.mp3" = .ok (none, none) ∧
    extract_cover_art sampleFS "a.mp3" = .ok none :=
  C7_untagged_reads sampleFS "a.mp3" rfl

/-- C8: the embedded MIME type is derived solely from the image path's
(lowercased) extension — `.jpg`/`.jpeg` give `image/jpeg`, `.png` gives
`image/png`, anything else falls back to `image/jpeg` — and an unknown
extension never makes `embed_cover_art` fail. -/
theorem C8_mime_from_extension :
    (∀ p q : String, py_lower (splitext_ext p) = py_lower (splitext_ext q) →
      mime_from_ext p = mime_from_ext q) ∧
    (∀ p : String,
      py_lower (splitext_ext p) = ".jpg" ∨ py_lower (splitext_ext p) = ".jpeg" →
      mime_from_ext p = "image/jpeg") ∧
    (∀ p : String, py_lower (splitext_ext p) = ".png" → mime_from_ext p = "image/png") ∧
    (∀ p : String, py_lower (splitext_ext p) ≠ ".jpg" →
      py_lower (splitext_ext p) ≠ ".jpeg" → py_lower (splitext_ext p) ≠ ".png" →
      mime_from_ext p = "image/jpeg") ∧
    (∀ (fs : FS) (p img : String) (tagsOpt : Option ID3) (d : FileData),
      findFile fs.files p = some (.mp3 tagsOpt) → findFile fs.files img = some d →
      p ∉ fs.unwritable → (embed_cover_art fs p img).1 = .ok ()) := by
  refine ⟨fun p q h => ?_, fun p h => ?_, fun p h => ?_, fun p h1 h2 h3 => ?_,
    fun fs p img tagsOpt d h1 h2 h3 => ?_⟩
  · simp only [mime_from_ext]
    rw [h]
  · simp only [mime_from_ext]
    rw [if_pos h]
  · simp [mime_from_ext, h]
  · simp [mime_from_ext, h1, h2, h3]
  · rw [embed_shape fs p img tagsOpt d h1 h2 h3]

/-- C8 witness: the three extension classes at concrete paths, and a
successful embed of a `.bmp` image. -/
theorem C8_mime_from_extension_witness :
    mime_from_ext "x.JPG" = "image/jpeg" ∧
    mime_from_ext "y.PNG" = "image/png" ∧
    mime_from_ext "z.bmp" = "image/jpeg" ∧
    (embed_cover_art sampleFS "a.mp3" "d.bmp").1 = .ok () :=
  ⟨C8_mime_from_extension.2.1 "x.JPG" (Or.inl (by simp [splitext_ext, py_lower,
      afterLastSep, suffixFromLastDot])),
   C8_mime_from_extension.2.2.1 "y.PNG" (by simp [splitext_ext, py_lower,
      afterLastSep, suffixFromLastDot]),
   C8_mime_from_extension.2.2.2.1 "z.bmp" (by simp [splitext_ext, py_lower,
      afterLastSep, suffixFromLastDot]) (by simp [splitext_ext, py_lower,
      afterLastSep, suffixFromLastDot]) (by simp [splitext_ext, py_lower,
      afterLastSep, suffixFromLastDot]),
   C8_mime_from_extension.2.2.2.2 sampleFS "a.mp3" "d.bmp" none (.raw [7])
      rfl rfl (by simp [sampleFS])⟩

/-- C5: `embed_cover_art` leaves the target either untouched (on any
failure) or fully updated by the single persist step (on success) —
there is no partially-written intermediate state. -/
theorem C5_atomic_write (fs : FS) (p img : String) :
    (∀ e, (embed_cover_art fs p img).1 = .error e → (embed_cover_art fs p img).2 = fs) ∧
    ((embed_cover_art fs p img).1 = .ok () →
      (embed_cover_art fs p img).2 =
        ⟨updateFile fs.files p (.mp3 (some (embed_result_tags fs p img))),
          fs.unwritable⟩) := by
  constructor
  · intro e he
    unfold embed_cover_art at he ⊢
    split_ifs at he ⊢
    · rfl
    · rfl
    · cases hO : MP3_open fs p with
      | error e0 => simp [hO]
      | ok tagsOpt =>
          cases hR : read_bytes fs img with
          | error e1 => simp [hO, hR]
          | ok b =>
              cases hS : save fs p
                  (ID3.add (ID3.delall (ensure_tags tagsOpt) "APIC")
                    (Frame.apic 3 (mime_from_ext img) 3 "Cover" b)) with
              | error e2 => simp [hO, hR, hS]
              | ok fs2 => simp [hO, hR, hS] at he
  · intro h
    obtain ⟨⟨tagsOpt, h1⟩, ⟨d, h2⟩, h3⟩ := embed_ok_inv fs p img h
    rw [embed_shape fs p img tagsOpt d h1 h2 h3]

/-- C5 witness: a failing embed (read-only target) leaves the concrete
filesystem unchanged; a succeeding embed is the one-step update. -/
theorem C5_atomic_write_witness :
    (embed_cover_art roFS "a.mp3" "c.png").2 = roFS ∧
    (embed_cover_art sampleFS "a.mp3" "c.png").2 =
      ⟨updateFile sampleFS.files "a.mp3"
        (.mp3 (some (embed_result_tags sampleFS "a.mp3" "c.png"))),
        sampleFS.unwritable⟩ :=
  ⟨(C5_atomic_write roFS "a.mp3" "c.png").1 (.ioError "Unable to save: a.mp3") rfl,
   (C5_atomic_write sampleFS "a.mp3" "c.png").2 rfl⟩

/-- C4 counterexample: with the target MP3 unwritable, `embed_cover_art`
and `set_metadata` fail, but the surfaced exception is the raw
underlying `IOError`, not a `TagWriteError` wrapper — the claim's
wrapping does not happen (no `TagWriteError` exists in the source). -/
theorem C4_counterexample :
    (embed_cover_art roFS "a.mp3" "c.png").1 = .error (.ioError "Unable to save: a.mp3") ∧
    (set_metadata roFS "a.mp3" "t" "a").1 = .error (.ioError "Unable to save: a.mp3") ∧
    PyErr.isTagWriteError (.ioError "Unable to save: a.mp3") = false :=
  ⟨rfl, rfl, rfl⟩

/-- C4 (amended): any failure of `embed_cover_art` or `set_metadata` is
surfaced as the raw underlying exception, re-raised unwrapped — never as
a `TagWriteError`. -/
theorem C4_raw_error_propagation (fs : FS) (p img t a : String) (e : PyErr) :
    ((embed_cover_art fs p img).1 = .error e → e.isTagWriteError = false) ∧
    ((set_metadata fs p t a).1 = .error e → e.isTagWriteError = false) := by
  constructor
  · by_cases hx : os_path_exists fs p = false
    · intro he
      simp [embed_cover_art, hx] at he
      subst he
      rfl
    · by_cases hi : os_path_exists fs img = false
      · intro he
        simp [embed_cover_art, hx, hi] at he
        subst he
        rfl
      · cases hO : MP3_open fs p with
        | error e0 =>
            intro he
            simp [embed_cover_art, hx, hi, hO] at he
            subst he
            unfold MP3_open at hO
            cases hf : findFile fs.files p with
            | none =>
                rw [hf] at hO
                simp at hO
                subst hO
                rfl
            | some d =>
                cases d with
                | mp3 ts => rw [hf] at hO; simp at hO
                | raw b =>
                    rw [hf] at hO
                    simp at hO
                    subst hO
                    rfl
        | ok tagsOpt =>
            cases hR : read_bytes fs img with
            | error e1 =>
                intro he
                simp [embed_cover_art, hx, hi, hO, hR] at he
                subst he
                unfold read_bytes at hR
                cases hf : findFile fs.files img with
                | none =>
                    rw [hf] at hR
                    simp at hR
                    subst hR
                    rfl
                | some d =>
                    cases d with
                    | mp3 ts => rw [hf] at hR; simp at hR
                    | raw b => rw [hf] at hR; simp at hR
            | ok b =>
                cases hS : save fs p
                    (ID3.add (ID3.delall (ensure_tags tagsOpt) "APIC")
                      (Frame.apic 3 (mime_from_ext img) 3 "Cover" b)) with
                | error e2 =>
                    intro he
                    simp [embed_cover_art, hx, hi, hO, hR, hS] at he
                    subst he
                    unfold save at hS
                    split_ifs at hS
                    simp at hS
                    subst hS
                    rfl
                | ok fs2 =>
                    intro he
                    simp [embed_cover_art, hx, hi, hO, hR, hS] at he
  · by_cases hx : os_path_exists fs p = false
    · intro he
      simp [set_metadata, hx] at he
      subst he
      rfl
    · cases hO : MP3_open fs p with
      | error e0 =>
          intro he
          simp [set_metadata, hx, hO] at he
          subst he
          unfold MP3_open at hO
          cases hf : findFile fs.files p with
          | none =>
              rw [hf] at hO
              simp at hO
              subst hO
              rfl
          | some d =>
              cases d with
              | mp3 ts => rw [hf] at hO; simp at hO
              | raw b =>
                  rw [hf] at hO
                  simp at hO
                  subst hO
                  rfl
      | ok tagsOpt =>
          cases hS : save fs p
              (ID3.add (ID3.add (ensure_tags tagsOpt) (.tit2 3 [t])) (.tpe1 3 [a])) with
          | error e2 =>
              intro he
              simp [set_metadata, hx, hO, hS] at he
              subst he
              unfold save at hS
              split_ifs at hS
              simp at hS
              subst hS
              rfl
          | ok fs2 =>
              intro he
              simp [set_metadata, hx, hO, hS] at he

/-- C4 witness: the raw `IOError` surfaced by the failing concrete embed
is not a `TagWriteError`. -/
theorem C4_raw_error_propagation_witness :
    PyErr.isTagWriteError (.ioError "Unable to save: a.mp3") = false :=
  (C4_raw_error_propagation roFS "a.mp3" "c.png" "t" "a"
    (.ioError "Unable to save: a.mp3")).1 rfl

/-- A filesystem whose MP3 starts with two `TIT2` frames in its
container — the "regardless of how many matching frames pre-exist" case
the spec's replace-not-append rule is meant to cover. -/
def dupFS : FS := ⟨[("d.mp3", .mp3 (some [.tit2 3 ["old1"], .tit2 3 ["old2"]]))], []⟩

/-- C2 counterexample: `set_metadata` performs no list-removal before
insertion — starting from a container with two `TIT2` frames, the call
succeeds yet two `TIT2` frames remain, because the code only relies on
the container's keyed `add` (which replaces a single entry) instead of
an explicit `delall`. -/
theorem C2_counterexample :
    (set_metadata dupFS "d.mp3" "t" "a").1 = .ok () ∧
    ID3.countKey (tagsAt (set_metadata dupFS "d.mp3" "t" "a").2 "d.mp3")
      (.text "TIT2") = 2 :=
  ⟨rfl, rfl⟩

/-- C2 (amended): `set_metadata` replaces its text frames through the
container's keyed `add` (dictionary assignment) rather than by explicit
removal; provided the starting container holds at most one frame per
text key — which every codec-produced container does — the container
afterwards holds exactly one `TIT2` and exactly one `TPE1` frame, and
the bound is preserved, so repeated calls never accumulate duplicates. -/
theorem C2_keyed_replace (fs : FS) (p t a : String) (tagsOpt : Option ID3)
    (h1 : findFile fs.files p = some (.mp3 tagsOpt))
    (h2 : p ∉ fs.unwritable)
    (hT : ID3.countKey (ensure_tags tagsOpt) (.text "TIT2") ≤ 1)
    (hA : ID3.countKey (ensure_tags tagsOpt) (.text "TPE1") ≤ 1) :
    ID3.countKey (tagsAt (set_metadata fs p t a).2 p) (.text "TIT2") = 1 ∧
    ID3.countKey (tagsAt (set_metadata fs p t a).2 p) (.text "TPE1") = 1 := by
  rw [set_metadata_shape fs p t a tagsOpt h1 h2]
  have htags : tagsAt
      (⟨updateFile fs.files p (.mp3 (some (set_result_tags tagsOpt t a))),
        fs.unwritable⟩ : FS) p = set_result_tags tagsOpt t a := by
    simp [tagsAt, findFile_updateFile_self]
  rw [htags]
  unfold set_result_tags ID3.add
  constructor
  · rw [ID3.countKey_setitem_other _ (.tpe1 3 [a]) (.text "TIT2")
      (by simp [Frame.hashKey])]
    exact ID3.countKey_setitem_self (ensure_tags tagsOpt) (.tit2 3 [t]) hT
  · refine ID3.countKey_setitem_self _ (.tpe1 3 [a]) ?_
    simp only [Frame.hashKey]
    rw [ID3.countKey_setitem_other _ (.tit2 3 [t]) (.text "TPE1")
      (by simp [Frame.hashKey])]
    exact hA

/-- C2 witness: replacing on an untagged file leaves exactly one title
and one artist frame. -/
theorem C2_keyed_replace_witness :
    ID3.countKey (tagsAt (set_metadata sampleFS "a.mp3" "x" "y").2 "a.mp3")
      (.text "TIT2") = 1 ∧
    ID3.countKey (tagsAt (set_metadata sampleFS "a.mp3" "x" "y").2 "a.mp3")
      (.text "TPE1") = 1 :=
  C2_keyed_replace sampleFS "a.mp3" "x" "y" none rfl (by simp [sampleFS])
    (by simp [ID3.countKey, ensure_tags]) (by simp [ID3.countKey, ensure_tags])

/-- C3: when `embed_cover_art` succeeds on an image file with content
`b`, `extract_cover_art` afterwards returns exactly `b` (the raw bytes,
untranscoded) and the container holds exactly one attached-picture
frame, however many existed before. -/
theorem C3_cover_roundtrip (fs : FS) (p img : String) (b : List Nat)
    (h1 : (embed_cover_art fs p img).1 = .ok ())
    (h2 : findFile fs.files img = some (.raw b)) :
    extract_cover_art (embed_cover_art fs p img).2 p = .ok (some b) ∧
    ID3.countAPIC (tagsAt (embed_cover_art fs p img).2 p) = 1 := by
  obtain ⟨⟨tagsOpt, hp⟩, ⟨d, hi⟩, hw⟩ := embed_ok_inv fs p img h1
  rw [embed_shape fs p img tagsOpt (.raw b) hp h2 hw]
  have hT : embed_result_tags fs p img
      = ID3.setitem (ID3.delall (ensure_tags tagsOpt) "APIC")
          (.apic 3 (mime_from_ext img) 3 "Cover" b) := by
    simp [embed_result_tags, MP3_open, hp, read_bytes, h2, Except.toOption,
      ID3.add]
  have hno : ∀ f ∈ ID3.delall (ensure_tags tagsOpt) "APIC", f.isAPIC = false :=
    fun f hf => ID3.not_isAPIC_of_mem_delall (ensure_tags tagsOpt) f hf
  have hfirst : ID3.firstAPICData (embed_result_tags fs p img) = some b := by
    rw [hT]
    exact ID3.firstAPICData_setitem_apic _ 3 (mime_from_ext img) 3 "Cover" b hno
  have htr : ID3.truthy (embed_result_tags fs p img) = true := by
    rw [hT]
    exact ID3.truthy_setitem _ _
  have hf' := findFile_updateFile_self fs.files p
    (.mp3 (some (embed_result_tags fs p img)))
  constructor
  · simp [extract_cover_art, os_path_exists, hf', MP3_open, htr, hfirst]
  · have htags : tagsAt
        (⟨updateFile fs.files p (.mp3 (some (embed_result_tags fs p img))),
          fs.unwritable⟩ : FS) p = embed_result_tags fs p img := by
      simp [tagsAt, hf']
    rw [htags, hT]
    exact ID3.countAPIC_setitem_apic _ 3 (mime_from_ext img) 3 "Cover" b hno

/-- C3 witness: embedding the concrete 3-byte image round-trips its
bytes and leaves exactly one picture frame. -/
theorem C3_cover_roundtrip_witness :
    extract_cover_art (embed_cover_art sampleFS "a.mp3" "c.png").2 "a.mp3"
      = .ok (some [1, 2, 3]) ∧
    ID3.countAPIC (tagsAt (embed_cover_art sampleFS "a.mp3" "c.png").2 "a.mp3") = 1 :=
  C3_cover_roundtrip sampleFS "a.mp3" "c.png" [1, 2, 3] rfl rfl

/-- C9: a successful `set_metadata` changes no attached-picture frame:
the APIC frames (content and order) are exactly those of the container
before the call, and `extract_cover_art` returns the same result as
before the call. -/
theorem C9_text_write_preserves_apic (fs : FS) (p t a : String)
    (h : (set_metadata fs p t a).1 = .ok ()) :
    extract_cover_art (set_metadata fs p t a).2 p = extract_cover_art fs p ∧
    List.filter Frame.isAPIC (tagsAt (set_metadata fs p t a).2 p)
      = List.filter Frame.isAPIC (tagsAt fs p) := by
  obtain ⟨⟨tagsOpt, hp⟩, hw⟩ := set_metadata_ok_inv fs p t a h
  rw [set_metadata_shape fs p t a tagsOpt hp hw]
  have hf' := findFile_updateFile_self fs.files p
    (.mp3 (some (set_result_tags tagsOpt t a)))
  have htags' : tagsAt
      (⟨updateFile fs.files p (.mp3 (some (set_result_tags tagsOpt t a))),
        fs.unwritable⟩ : FS) p = set_result_tags tagsOpt t a := by
    simp [tagsAt, hf']
  have hfilter : List.filter Frame.isAPIC (set_result_tags tagsOpt t a)
      = List.filter Frame.isAPIC (ensure_tags tagsOpt) := by
    unfold set_result_tags ID3.add
    rw [ID3.filter_isAPIC_setitem_text _ (.tpe1 3 [a]) "TPE1" rfl,
      ID3.filter_isAPIC_setitem_text _ (.tit2 3 [t]) "TIT2" rfl]
  have hfirst : ID3.firstAPICData (set_result_tags tagsOpt t a)
      = ID3.firstAPICData (ensure_tags tagsOpt) := by
    unfold set_result_tags ID3.add
    rw [ID3.firstAPICData_setitem_text _ (.tpe1 3 [a]) "TPE1" rfl,
      ID3.firstAPICData_setitem_text _ (.tit2 3 [t]) "TIT2" rfl]
  have htr : ID3.truthy (set_result_tags tagsOpt t a) = true := by
    unfold set_result_tags ID3.add
    exact ID3.truthy_setitem _ _
  have hex2 : extract_cover_art
      (⟨updateFile fs.files p (.mp3 (some (set_result_tags tagsOpt t a))),
        fs.unwritable⟩ : FS) p
      = .ok (ID3.firstAPICData (set_result_tags tagsOpt t a)) := by
    simp [extract_cover_art, os_path_exists, hf', MP3_open, htr]
  have hex1 : extract_cover_art fs p
      = .ok (ID3.firstAPICData (ensure_tags tagsOpt)) := by
    cases tagsOpt with
    | none =>
        simp [extract_cover_art, os_path_exists, hp, MP3_open, ensure_tags,
          ID3.firstAPICData]
    | some ts =>
        cases ts with
        | nil =>
            simp [extract_cover_art, os_path_exists, hp, MP3_open, ensure_tags,
              ID3.truthy, ID3.firstAPICData]
        | cons g rest =>
            simp [extract_cover_art, os_path_exists, hp, MP3_open, ensure_tags,
              ID3.truthy]
  constructor
  · rw [hex2, hex1, hfirst]
  · rw [htags', hfilter]
    cases tagsOpt with
    | none => simp [tagsAt, hp, ensure_tags]
    | some ts => simp [tagsAt, hp, ensure_tags]

/-- A filesystem with a tagged MP3 holding a title and a cover. -/
def taggedFS : FS :=
  ⟨[("s.mp3", .mp3 (some [.tit2 3 ["T"], .apic 3 "image/jpeg" 3 "Cover" [5]]))], []⟩

/-- C9 witness: writing text over a file that already has a cover leaves
the cover retrievable unchanged. -/
theorem C9_text_write_preserves_apic_witness :
    extract_cover_art (set_metadata taggedFS "s.mp3" "x" "y").2 "s.mp3"
      = extract_cover_art taggedFS "s.mp3" ∧
    List.filter Frame.isAPIC (tagsAt (set_metadata taggedFS "s.mp3" "x" "y").2 "s.mp3")
      = List.filter Frame.isAPIC (tagsAt taggedFS "s.mp3") :=
  C9_text_write_preserves_apic taggedFS "s.mp3" "x" "y" rfl

/-- A filesystem whose MP3 has a `TIT2` frame with an empty text list
(as parsed from a frame whose payload is only the encoding byte). -/
def emptyTextFS : FS := ⟨[("t.mp3", .mp3 (some [.tit2 3 []]))], []⟩

/-- C10 counterexample: a parseable container can hold a `TIT2` frame
whose text list is empty; on it the unguarded `text[0]` raises
`IndexError` instead of returning absent — the claimed non-emptiness
invariant does not hold for every parseable file. -/
theorem C10_counterexample :
    ID3.findKey (tagsAt emptyTextFS "t.mp3") (.text "TIT2") = some (.tit2 3 []) ∧
    get_metadata emptyTextFS "t.mp3" = .error .indexError :=
  ⟨rfl, rfl⟩

/-- C10 (amended): whenever the frames stored under the `TIT2` and
`TPE1` keys carry at least one text value — true in particular of every
container `set_metadata` writes — the unguarded `text[0]` is safe and
`get_metadata` returns without raising. -/
theorem C10_text_index_safe (fs : FS) (p : String) (tagsOpt : Option ID3)
    (h : findFile fs.files p = some (.mp3 tagsOpt))
    (hT : ∀ f, ID3.findKey (ensure_tags tagsOpt) (.text "TIT2") = some f → f.text ≠ [])
    (hA : ∀ f, ID3.findKey (ensure_tags tagsOpt) (.text "TPE1") = some f → f.text ≠ []) :
    ∃ m, get_metadata fs p = .ok m := by
  obtain ⟨v1, hv1⟩ := read_field_ok tagsOpt (.text "TIT2") hT
  obtain ⟨v2, hv2⟩ := read_field_ok tagsOpt (.text "TPE1") hA
  exact ⟨(v1, v2), by simp [get_metadata, os_path_exists, h, MP3_open, hv1, hv2]⟩

/-- C10 witness: reading the concrete tagged file (title present with a
value, artist absent) succeeds. -/
theorem C10_text_index_safe_witness :
    ∃ m, get_metadata taggedFS "s.mp3" = .ok m :=
  C10_text_index_safe taggedFS "s.mp3"
    (some [.tit2 3 ["T"], .apic 3 "image/jpeg" 3 "Cover" [5]]) rfl
    (by
      intro f hf
      simp [ensure_tags, ID3.findKey, List.find?, Frame.hashKey] at hf
      rw [← hf]
      simp [Frame.text])
    (by
      intro f hf
      simp [ensure_tags, ID3.findKey, List.find?, Frame.hashKey] at hf)

end Mp3Image
